import Mathlib

/-!
Verification of the DocPilot physician-dashboard data layer.

The JavaScript data layer (`DataManager` in `js/data.js` and its evolved
localStorage-backed version, plus `PatientManager` and `DashboardManager`)
is shallowly embedded here.  JavaScript strings are modelled as lists of
characters (`Str`), the three module-level collections as a `Store`
record, and each manager method as a pure function threading the store
(and, where the source mutates it, returning the updated store).
`generateId` (timestamp + random) is modelled by passing the freshly
generated id as an explicit argument.  A thrown `TypeError` is modelled
with `Except Unit`.  Examination payload fields that no verified
operation reads (vitals, narrative fields other than `diagnosis` and
`chiefComplaint`) are omitted from the record.
-/

/-- JavaScript strings, modelled as lists of characters. -/
abbrev Str := List Char

/-- Embed a Lean string literal into the character-list representation. -/
def str (s : String) : Str := s.data

namespace JS

/-- Character-wise lower-casing, the model of `String.prototype.toLowerCase`
(the data layer only ever compares basic-latin text). -/
def toLowerStr (s : Str) : Str := s.map Char.toLower

/-- Does `s` start with `t`?  Helper for `includes`. -/
def startsWith : Str → Str → Bool
  | _, [] => true
  | [], _ :: _ => false
  | c :: cs, d :: ds => decide (c = d) && startsWith cs ds

/-- `s.includes(t)` — substring test of `String.prototype.includes`. -/
def includes : Str → Str → Bool
  | [], t => t.isEmpty
  | c :: rest, t => startsWith (c :: rest) t || includes rest t

/-- The test `!query || query.trim() === ''`: the string is empty or
consists of whitespace only. -/
def isBlank (q : Str) : Bool := q.all Char.isWhitespace

/-- `s.trim()` — strip leading and trailing whitespace. -/
def trim (s : Str) : Str :=
  ((s.dropWhile Char.isWhitespace).reverse.dropWhile Char.isWhitespace).reverse

/-- Lexicographic `≤` on character lists via code points.  All dates in
the system are ISO-8601 UTC timestamps of identical shape, for which
lexicographic order coincides with the numeric order of `new Date(s)`
used by the source's sort comparators. -/
def strLe : Str → Str → Bool
  | [], _ => true
  | _ :: _, [] => false
  | c :: cs, d :: ds =>
    if c.toNat = d.toNat then strLe cs ds else decide (c.toNat < d.toNat)

end JS

/-- Nested emergency-contact record of a patient. -/
structure EmergencyContact where
  name : Str
  relationship : Str
  phone : Str
deriving DecidableEq

/-- A patient record.  `email` is optional in the data model (the seed
patients all carry one, but nothing forces it on added patients);
`lastVisit` is absent until the first examination is recorded. -/
structure Patient where
  id : Nat
  firstName : Str
  lastName : Str
  dateOfBirth : Str
  gender : Str
  phoneNumber : Str
  email : Option Str
  address : Str
  medicalHistory : Str
  insuranceInfo : Str
  emergencyContact : EmergencyContact
  dateAdded : Str
  lastVisit : Option Str
  status : Str
deriving DecidableEq

/-- An examination record (payload fields unused by the verified
operations are omitted). -/
structure Exam where
  id : Nat
  patientId : Nat
  date : Str
  type : Str
  diagnosis : Option Str
  chiefComplaint : Option Str
  status : Str
deriving DecidableEq

/-- A file metadata record. -/
structure FileRec where
  id : Nat
  patientId : Nat
  name : Str
  type : Str
  size : Nat
  category : Str
  description : Str
  dateUploaded : Str
  uploadedBy : Str
  tags : List Str
deriving DecidableEq

/-- The three module-level collections (`patients`, `examinations`,
`files`). -/
structure Store where
  patients : List Patient
  examinations : List Exam
  files : List FileRec
deriving DecidableEq

namespace DataManager

/-- `getPatients()` returns a defensive copy of the array; in the
embedding, the list itself. -/
def getPatients (s : Store) : List Patient := s.patients

/-- `getPatientById(id)` — `patients.find(patient => patient.id === id)`. -/
def getPatientById (s : Store) (pid : Nat) : Option Patient :=
  s.patients.find? (fun p => p.id == pid)

/-- A partial patient record, the model of the `patientData` argument of
`updatePatient`: fields left `none` are absent from the object and so
survive the `{ ...patients[index], ...patientData }` spread merge. -/
structure PatientPatch where
  firstName : Option Str := none
  lastName : Option Str := none
  dateOfBirth : Option Str := none
  gender : Option Str := none
  phoneNumber : Option Str := none
  email : Option Str := none
  address : Option Str := none
  medicalHistory : Option Str := none
  insuranceInfo : Option Str := none
  lastVisit : Option Str := none
  status : Option Str := none

/-- The spread merge `{ ...patients[index], ...patientData }`. -/
def mergePatient (p : Patient) (q : PatientPatch) : Patient :=
  { p with
    firstName := q.firstName.getD p.firstName
    lastName := q.lastName.getD p.lastName
    dateOfBirth := q.dateOfBirth.getD p.dateOfBirth
    gender := q.gender.getD p.gender
    phoneNumber := q.phoneNumber.getD p.phoneNumber
    email := match q.email with | some e => some e | none => p.email
    address := q.address.getD p.address
    medicalHistory := q.medicalHistory.getD p.medicalHistory
    insuranceInfo := q.insuranceInfo.getD p.insuranceInfo
    lastVisit := match q.lastVisit with | some v => some v | none => p.lastVisit
    status := q.status.getD p.status }

/-- `findIndex` + in-place assignment of `updatePatient`: replace the
first patient with the given id by its merge with the patch. -/
def updateFirstPatient (ps : List Patient) (pid : Nat) (q : PatientPatch) :
    Option Patient × List Patient :=
  match ps with
  | [] => (none, [])
  | p :: rest =>
    if p.id == pid then
      let p' := mergePatient p q
      (some p', p' :: rest)
    else
      let (r, rest') := updateFirstPatient rest pid q
      (r, p :: rest')

/-- `updatePatient(id, patientData)`: merge over the first matching
record, `null` (here `none`) when the id is not found. -/
def updatePatient (s : Store) (pid : Nat) (q : PatientPatch) : Option Patient × Store :=
  let (r, ps') := updateFirstPatient s.patients pid q
  (r, { s with patients := ps' })

/-- `findIndex` + `splice(index, 1)`: remove the first patient with the
given id, returning it together with the remaining list. -/
def removeFirstPatient (ps : List Patient) (pid : Nat) : Option (Patient × List Patient) :=
  match ps with
  | [] => none
  | p :: rest =>
    if p.id == pid then some (p, rest)
    else
      match removeFirstPatient rest pid with
      | some (d, rest') => some (d, p :: rest')
      | none => none

/-- `deletePatient(id)`: splice the patient out and filter the
examinations and files arrays down to records with a different
`patientId`; `none` and an unchanged store when the id is not found. -/
def deletePatient (s : Store) (pid : Nat) : Option Patient × Store :=
  match removeFirstPatient s.patients pid with
  | some (d, ps') =>
    (some d,
      { patients := ps'
        examinations := s.examinations.filter (fun e => e.patientId != pid)
        files := s.files.filter (fun f => f.patientId != pid) })
  | none => (none, s)

/-- `getExaminations()` — defensive copy of the examinations array. -/
def getExaminations (s : Store) : List Exam := s.examinations

/-- `getExaminationsByPatientId(patientId)`. -/
def getExaminationsByPatientId (s : Store) (pid : Nat) : List Exam :=
  s.examinations.filter (fun e => e.patientId == pid)

/-- `getFiles()`. -/
def getFiles (s : Store) : List FileRec := s.files

/-- `getFilesByPatientId(patientId)`. -/
def getFilesByPatientId (s : Store) (pid : Nat) : List FileRec :=
  s.files.filter (fun f => f.patientId == pid)

/-- The `examinationData` argument of `addExamination` (`id` and
`status` are supplied by the store itself). -/
structure ExamData where
  patientId : Nat
  date : Str
  type : Str
  diagnosis : Option Str := none
  chiefComplaint : Option Str := none

/-- `addExamination(examinationData)`: build the new record with a fresh
id (passed in here, since `generateId` draws on the clock and
`Math.random`), push it, then — only if the referenced patient exists —
update that patient's `lastVisit` to the examination's date.  There is
no referential-integrity check anywhere in the function. -/
def addExamination (s : Store) (newId : Nat) (d : ExamData) : Exam × Store :=
  let newExam : Exam :=
    { id := newId
      patientId := d.patientId
      date := d.date
      type := d.type
      diagnosis := d.diagnosis
      chiefComplaint := d.chiefComplaint
      status := str "completed" }
  let s1 : Store := { s with examinations := s.examinations ++ [newExam] }
  let s2 : Store :=
    match getPatientById s1 d.patientId with
    | some p => (updatePatient s1 p.id { lastVisit := some d.date }).2
    | none => s1
  (newExam, s2)

end DataManager

/-! Concrete fixtures used by witnesses and counterexamples. -/

/-- A patient with an email address. -/
def pAnn : Patient :=
  { id := 1
    firstName := str "Ann"
    lastName := str "Lee"
    dateOfBirth := str "1990-01-01"
    gender := str "female"
    phoneNumber := str "(555) 010-0001"
    email := some (str "ann.lee@email.com")
    address := str "1 Main Street"
    medicalHistory := str "None"
    insuranceInfo := str "Acme - Policy 1"
    emergencyContact :=
      { name := str "Bo Lee", relationship := str "Spouse", phone := str "(555) 010-0002" }
    dateAdded := str "2024-01-01T00:00:00.000Z"
    lastVisit := none
    status := str "active" }

/-- A patient without an email address (the field is optional). -/
def pNoMail : Patient :=
  { id := 2
    firstName := str "Cy"
    lastName := str "Ray"
    dateOfBirth := str "1980-05-05"
    gender := str "male"
    phoneNumber := str "(555) 020-0001"
    email := none
    address := str "2 Oak Avenue"
    medicalHistory := str "None"
    insuranceInfo := str "Acme - Policy 2"
    emergencyContact :=
      { name := str "Di Ray", relationship := str "Sister", phone := str "(555) 020-0002" }
    dateAdded := str "2024-02-01T00:00:00.000Z"
    lastVisit := none
    status := str "active" }

/-- An examination of patient 1 with a diagnosis, dated earlier. -/
def exEarly : Exam :=
  { id := 1
    patientId := 1
    date := str "2024-03-01T10:00:00.000Z"
    type := str "routine"
    diagnosis := some (str "Flu")
    chiefComplaint := some (str "Cough")
    status := str "completed" }

/-- An examination of patient 1 without a diagnosis, dated later. -/
def exLate : Exam :=
  { id := 2
    patientId := 1
    date := str "2024-07-01T10:00:00.000Z"
    type := str "follow-up"
    diagnosis := none
    chiefComplaint := none
    status := str "completed" }

/-- A file of patient 1. -/
def fScan : FileRec :=
  { id := 1
    patientId := 1
    name := str "Scan.pdf"
    type := str "application/pdf"
    size := 1024
    category := str "imaging"
    description := str "Scan"
    dateUploaded := str "2024-03-01T11:00:00.000Z"
    uploadedBy := str "Dr. John Smith, MD"
    tags := [str "scan"] }

/-- A small concrete store: two patients, two examinations, one file. -/
def testStore : Store :=
  { patients := [pAnn, pNoMail]
    examinations := [exEarly, exLate]
    files := [fScan] }

/-! Helper lemmas about the store operations. -/

/-- Filtering for a key after having filtered it away yields nothing. -/
theorem filter_key_eq_of_filter_key_ne {α : Type} (key : α → Nat) (l : List α) (pid : Nat) :
    ((l.filter (fun e => key e != pid)).filter (fun e => key e == pid)) = [] := by
  induction l with
  | nil => rfl
  | cons e rest ih =>
    by_cases h : key e = pid
    · simp [List.filter_cons, h, ih]
    · simp [List.filter_cons, h, ih]

/-- A patient present in the list makes `removeFirstPatient` succeed. -/
theorem removeFirstPatient_isSome (ps : List Patient) (p : Patient) (hp : p ∈ ps) :
    ∃ d rest, DataManager.removeFirstPatient ps p.id = some (d, rest) := by
  induction ps with
  | nil => cases hp
  | cons x rest ih =>
    by_cases h : x.id = p.id
    · exact ⟨x, rest, by simp [DataManager.removeFirstPatient, h]⟩
    · have hpr : p ∈ rest := by
        cases hp with
        | head => exact absurd rfl h
        | tail _ hm => exact hm
      obtain ⟨d, rest', hr⟩ := ih hpr
      exact ⟨d, x :: rest', by simp [DataManager.removeFirstPatient, h, hr]⟩

/-- Updating the first patient with a given id is visible to `find?` for
that id: the looked-up record is the merged one. -/
theorem updateFirstPatient_find (ps : List Patient) (pid : Nat) (q : DataManager.PatientPatch)
    (p : Patient) (hf : ps.find? (fun x => x.id == pid) = some p) :
    ((DataManager.updateFirstPatient ps pid q).2.find? (fun x => x.id == pid))
      = some (DataManager.mergePatient p q) := by
  induction ps with
  | nil => simp at hf
  | cons x rest ih =>
    by_cases h : x.id = pid
    · have hx : x = p := by
        have := hf
        rw [List.find?_cons_of_pos _ (by simp [h])] at this
        exact (Option.some_inj.mp this)
      subst hx
      simp only [DataManager.updateFirstPatient, if_pos (by simp [h] : (x.id == pid) = true)]
      have hid : (DataManager.mergePatient x q).id = x.id := rfl
      rw [List.find?_cons_of_pos _ (by simp [hid, h])]
    · have hf' : rest.find? (fun x => x.id == pid) = some p := by
        have := hf
        rw [List.find?_cons_of_neg _ (by simp [h])] at this
        exact this
      simp only [DataManager.updateFirstPatient, if_neg (by simp [h] : ¬(x.id == pid) = true)]
      rw [List.find?_cons_of_neg _ (by simp [h])]
      exact ih hf'

/-! ### C2 — cascade delete -/

/-- C2: for every store state and every patient `p` present in the
store, after `deletePatient(p.id)` returns, both
`listExaminationsForPatient(p.id)` and `listFilesForPatient(p.id)` are
empty: the delete cascades to every examination and file referencing
that patient id in the same operation. -/
theorem deletePatient_cascades (s : Store) (p : Patient) (hp : p ∈ s.patients) :
    DataManager.getExaminationsByPatientId (DataManager.deletePatient s p.id).2 p.id = [] ∧
    DataManager.getFilesByPatientId (DataManager.deletePatient s p.id).2 p.id = [] := by
  obtain ⟨d, rest, hr⟩ := removeFirstPatient_isSome s.patients p hp
  constructor
  · simp only [DataManager.getExaminationsByPatientId, DataManager.deletePatient, hr]
    exact filter_key_eq_of_filter_key_ne Exam.patientId s.examinations p.id
  · simp only [DataManager.getFilesByPatientId, DataManager.deletePatient, hr]
    exact filter_key_eq_of_filter_key_ne FileRec.patientId s.files p.id

/-- C2 witness: deleting patient 1 from the concrete store empties both
per-patient views. -/
theorem deletePatient_cascades_witness :
    DataManager.getExaminationsByPatientId (DataManager.deletePatient testStore pAnn.id).2
        pAnn.id = [] ∧
    DataManager.getFilesByPatientId (DataManager.deletePatient testStore pAnn.id).2
        pAnn.id = [] :=
  deletePatient_cascades testStore pAnn (by decide)

/-! ### C3 — lastVisit side-effect -/

/-- C3: when the store contains a patient with id `d.patientId`,
`addExamination` side-effects that patient's `lastVisit` to the new
examination's date: the patient looked up afterwards carries
`lastVisit = d.date`. -/
theorem addExamination_sets_lastVisit (s : Store) (newId : Nat) (d : DataManager.ExamData)
    (h : (DataManager.getPatientById s d.patientId).isSome) :
    ∃ p', DataManager.getPatientById (DataManager.addExamination s newId d).2 d.patientId
        = some p' ∧ p'.lastVisit = some d.date := by
  obtain ⟨p, hp⟩ := Option.isSome_iff_exists.mp h
  have hpid : p.id = d.patientId := by
    have := List.find?_some hp
    simpa using this
  refine ⟨DataManager.mergePatient p { lastVisit := some d.date }, ?_, rfl⟩
  simp only [DataManager.addExamination, DataManager.getPatientById] at hp ⊢
  rw [hp]
  simp only [DataManager.updatePatient]
  rw [hpid]
  exact updateFirstPatient_find s.patients d.patientId _ p hp

/-- C3 witness: recording an examination for patient 1 of the concrete
store stamps its date into the patient's `lastVisit`. -/
theorem addExamination_sets_lastVisit_witness :
    ∃ p', DataManager.getPatientById
        (DataManager.addExamination testStore 42
          { patientId := 1, date := str "2024-10-01T09:00:00.000Z",
            type := str "routine" }).2 1 = some p'
      ∧ p'.lastVisit = some (str "2024-10-01T09:00:00.000Z") :=
  addExamination_sets_lastVisit testStore 42
    { patientId := 1, date := str "2024-10-01T09:00:00.000Z", type := str "routine" }
    (by decide)

/-! ### C1 — referential guard on addExamination -/

/-- An examination payload referencing a patient id absent from
`testStore`. -/
def danglingExamData : DataManager.ExamData :=
  { patientId := 77
    date := str "2024-10-01T00:00:00.000Z"
    type := str "routine" }

/-- C1 counterexample: the claim says `addExamination` with a
nonexistent `patientId` fails and leaves `listExaminations()`
unchanged; on the concrete store the call succeeds and the examinations
collection afterwards differs from the one before. -/
theorem addExamination_dangling_changes_examinations :
    DataManager.getExaminations (DataManager.addExamination testStore 99 danglingExamData).2
      ≠ DataManager.getExaminations testStore := by decide

/-- C1 amended: `addExamination` performs no referential-integrity
check.  With a `patientId` matching no patient it does not fail: the
new examination is appended to the collection (so `listExaminations()`
gains exactly that record) and the patients collection is untouched (in
particular no `lastVisit` update happens). -/
theorem addExamination_no_referential_check (s : Store) (newId : Nat)
    (d : DataManager.ExamData) (h : DataManager.getPatientById s d.patientId = none) :
    (DataManager.addExamination s newId d).2.examinations
        = s.examinations ++ [(DataManager.addExamination s newId d).1]
      ∧ (DataManager.addExamination s newId d).2.patients = s.patients := by
  simp only [DataManager.addExamination, DataManager.getPatientById] at h ⊢
  rw [h]
  exact ⟨rfl, rfl⟩

/-- C1 amended witness: on the concrete store the dangling-reference
examination is appended and the patients are unchanged. -/
theorem addExamination_no_referential_check_witness :
    (DataManager.addExamination testStore 99 danglingExamData).2.examinations
        = testStore.examinations
            ++ [(DataManager.addExamination testStore 99 danglingExamData).1]
      ∧ (DataManager.addExamination testStore 99 danglingExamData).2.patients
        = testStore.patients :=
  addExamination_no_referential_check testStore 99 danglingExamData (by decide)

/-! ### PatientManager — selection state and the UI deletion path -/

/-- The selection state owned by `PatientManager`
(`selectedPatientId: number|null`). -/
structure PatientManagerState where
  selectedPatientId : Option Nat
deriving DecidableEq

namespace PatientManager

/-- `selectPatient(patientId)`: the selection is assigned
unconditionally before any lookup; the success notification then reads
`patient.firstName` without a guard, so a missing patient makes the
call throw a `TypeError` (modelled as `Except.error ()`) after the
selection has already changed.  No existence validation is performed. -/
def selectPatient (pm : PatientManagerState) (s : Store) (pid : Nat) :
    PatientManagerState × Except Unit Unit :=
  let pm' : PatientManagerState := { selectedPatientId := some pid }
  match DataManager.getPatientById s pid with
  | some _ => (pm', Except.ok ())
  | none => (pm', Except.error ())

/-- `deleteSelectedPatient()`: warn and do nothing when no patient is
selected or the selected id no longer resolves; otherwise, once the
user confirms the dialog (`confirmed` models that answer), delete
through the store — which cascades — and clear the selection when the
delete returned the removed patient. -/
def deleteSelectedPatient (pm : PatientManagerState) (s : Store) (confirmed : Bool) :
    PatientManagerState × Store :=
  match pm.selectedPatientId with
  | none => (pm, s)
  | some sel =>
    match DataManager.getPatientById s sel with
    | none => (pm, s)
    | some _ =>
      if confirmed then
        match DataManager.deletePatient s sel with
        | (some _, s') => ({ selectedPatientId := none }, s')
        | (none, s') => (pm, s')
      else (pm, s)

end PatientManager

/-- A `find?` hit for an id makes `removeFirstPatient` succeed on that
id. -/
theorem removeFirstPatient_isSome_of_find (ps : List Patient) (pid : Nat) (p : Patient)
    (hp : ps.find? (fun x => x.id == pid) = some p) :
    ∃ d rest, DataManager.removeFirstPatient ps pid = some (d, rest) := by
  have hmem : p ∈ ps := List.mem_of_find?_eq_some hp
  have hpid : p.id = pid := by simpa using List.find?_some hp
  obtain ⟨d, rest, hr⟩ := removeFirstPatient_isSome ps p hmem
  rw [hpid] at hr
  exact ⟨d, rest, hr⟩

/-! ### C5 — selection cleared when the selected patient is deleted -/

/-- C5: when the selected patient id is `P`, the patient exists, and the
user confirms, the deletion operation (`deleteSelectedPatient`, the
application's only path into `DataManager.deletePatient`) succeeds and
leaves the coordinator's `selectedPatientId` at `null`. -/
theorem deleteSelectedPatient_clears_selection (pm : PatientManagerState) (s : Store)
    (P : Nat) (hsel : pm.selectedPatientId = some P)
    (hex : (DataManager.getPatientById s P).isSome) :
    (PatientManager.deleteSelectedPatient pm s true).1.selectedPatientId = none ∧
    (DataManager.deletePatient s P).1.isSome := by
  obtain ⟨p, hp⟩ := Option.isSome_iff_exists.mp hex
  obtain ⟨d, rest, hr⟩ := removeFirstPatient_isSome_of_find s.patients P p hp
  constructor
  · simp only [PatientManager.deleteSelectedPatient, hsel, hp, if_true,
      DataManager.deletePatient, hr]
  · simp only [DataManager.deletePatient, hr, Option.isSome_some]

/-- C5 witness: with patient 1 of the concrete store selected, the
confirmed deletion clears the selection. -/
theorem deleteSelectedPatient_clears_selection_witness :
    (PatientManager.deleteSelectedPatient { selectedPatientId := some 1 } testStore
        true).1.selectedPatientId = none ∧
    (DataManager.deletePatient testStore 1).1.isSome :=
  deleteSelectedPatient_clears_selection { selectedPatientId := some 1 } testStore 1 rfl
    (by decide)

/-! ### C8 — selectPatient on a nonexistent id -/

/-- The empty store. -/
def emptyStore : Store := { patients := [], examinations := [], files := [] }

/-- C8 counterexample: the claim says `selectPatient` on a nonexistent
id validates existence and is a no-op that does not fail; starting from
no selection over the empty store, `selectPatient(99)` in fact moves
`selectedPatientId` from `none` to `some 99` and throws a `TypeError`
(from the unguarded `patient.firstName` in the notification). -/
theorem selectPatient_missing_not_noop :
    (PatientManager.selectPatient { selectedPatientId := none } emptyStore
        99).1.selectedPatientId = some 99 ∧
    (PatientManager.selectPatient { selectedPatientId := none } emptyStore 99).2
        = Except.error () :=
  ⟨rfl, rfl⟩

/-- C8 amended: for an id that matches no patient, `selectPatient`
performs no existence validation: it sets `selectedPatientId` to that
id and then throws a `TypeError` while building the selection
notification (`patient.firstName` on `undefined`). -/
theorem selectPatient_missing_sets_and_throws (pm : PatientManagerState) (s : Store)
    (pid : Nat) (h : DataManager.getPatientById s pid = none) :
    (PatientManager.selectPatient pm s pid).1.selectedPatientId = some pid ∧
    (PatientManager.selectPatient pm s pid).2 = Except.error () := by
  simp [PatientManager.selectPatient, h]

/-- C8 amended witness: selecting the absent id 77 on the concrete
store sets the selection to 77 and throws. -/
theorem selectPatient_missing_sets_and_throws_witness :
    (PatientManager.selectPatient { selectedPatientId := some 1 } testStore
        77).1.selectedPatientId = some 77 ∧
    (PatientManager.selectPatient { selectedPatientId := some 1 } testStore 77).2
        = Except.error () :=
  selectPatient_missing_sets_and_throws { selectedPatientId := some 1 } testStore 77
    (by decide)

/-! ### Date ordering used by the recent-activity sort -/

/-- `strLe` is total. -/
theorem strLe_total : ∀ x y : Str, JS.strLe x y = true ∨ JS.strLe y x = true := by
  intro x
  induction x with
  | nil => intro y; left; rfl
  | cons c cs ih =>
    intro y
    cases y with
    | nil => right; rfl
    | cons d ds =>
      simp only [JS.strLe]
      by_cases h : c.toNat = d.toNat
      · have h' : d.toNat = c.toNat := h.symm
        rw [if_pos h, if_pos h']
        exact ih ds
      · have h' : ¬ d.toNat = c.toNat := fun e => h e.symm
        rw [if_neg h, if_neg h']
        rcases Nat.lt_or_ge c.toNat d.toNat with hlt | hge
        · left; exact decide_eq_true hlt
        · right; exact decide_eq_true (by omega)

/-- `strLe` is transitive. -/
theorem strLe_trans : ∀ x y z : Str,
    JS.strLe x y = true → JS.strLe y z = true → JS.strLe x z = true := by
  intro x
  induction x with
  | nil => intro y z _ _; rfl
  | cons c cs ih =>
    intro y z h1 h2
    cases y with
    | nil => simp [JS.strLe] at h1
    | cons d ds =>
      cases z with
      | nil => simp [JS.strLe] at h2
      | cons e es =>
        simp only [JS.strLe] at h1 h2 ⊢
        by_cases hcd : c.toNat = d.toNat
        · by_cases hde : d.toNat = e.toNat
          · have hce : c.toNat = e.toNat := hcd.trans hde
            rw [if_pos hcd] at h1; rw [if_pos hde] at h2; rw [if_pos hce]
            exact ih ds es h1 h2
          · rw [if_pos hcd] at h1; rw [if_neg hde] at h2
            have hlt : d.toNat < e.toNat := of_decide_eq_true h2
            have hce : ¬ c.toNat = e.toNat := by omega
            rw [if_neg hce]; exact decide_eq_true (by omega)
        · rw [if_neg hcd] at h1
          have hlt1 : c.toNat < d.toNat := of_decide_eq_true h1
          by_cases hde : d.toNat = e.toNat
          · rw [if_pos hde] at h2
            have hce : ¬ c.toNat = e.toNat := by omega
            rw [if_neg hce]; exact decide_eq_true (by omega)
          · rw [if_neg hde] at h2
            have hlt2 : d.toNat < e.toNat := of_decide_eq_true h2
            have hce : ¬ c.toNat = e.toNat := by omega
            rw [if_neg hce]; exact decide_eq_true (by omega)

/-- The sort comparator `(a, b) => new Date(b.date) - new Date(a.date)`:
`a` may precede `b` when `a`'s date is the later (or equal) one, i.e.
date-descending order. -/
def dateDesc (a b : Exam) : Prop := JS.strLe b.date a.date = true

instance : DecidableRel dateDesc :=
  fun a b => inferInstanceAs (Decidable (JS.strLe b.date a.date = true))

instance : IsTotal Exam dateDesc :=
  ⟨fun a b => strLe_total b.date a.date⟩

instance : IsTrans Exam dateDesc :=
  ⟨fun a b c hab hbc => strLe_trans c.date b.date a.date hbc hab⟩

/-- The denormalized view returned by `getRecentActivity`: the spread
examination together with the joined `patientName`. -/
structure Activity where
  exam : Exam
  patientName : Str
deriving DecidableEq

/-- `getRecentActivity(limit)`: `examinations.sort(cmp)` sorts the
module-level array in place (JavaScript `Array.prototype.sort` mutates
and returns the same array, and is a stable sort, modelled by
`insertionSort`); the sorted array is then sliced to `limit` and each
record joined with its patient's display name, with the
`'Unknown Patient'` placeholder for a dangling reference.  The second
component is the store as the call leaves it. -/
def DataManager.getRecentActivity (s : Store) (limit : Nat) : List Activity × Store :=
  let sorted := List.insertionSort dateDesc s.examinations
  (((sorted.take limit).map fun e =>
      { exam := e
        patientName :=
          match DataManager.getPatientById s e.patientId with
          | some p => p.firstName ++ [' '] ++ p.lastName
          | none => str "Unknown Patient" }),
    { s with examinations := sorted })

/-! ### C6 — getRecentActivity is not a pure read -/

/-- C6 counterexample: the claim says `getRecentActivity` leaves the
examinations collection unchanged, with a subsequent
`listExaminations()` returning the same elements in the same order; on
the concrete store (examinations stored oldest-first) the call reorders
the stored collection. -/
theorem getRecentActivity_reorders :
    DataManager.getExaminations (DataManager.getRecentActivity testStore 5).2
      ≠ DataManager.getExaminations testStore := by decide

/-- C6 amended: `getRecentActivity` sorts the store's examinations
array in place: afterwards `listExaminations()` returns the same
examinations as a multiset (a permutation of the pre-call collection)
sorted by date descending — not necessarily the pre-call order — while
patients and files are untouched. -/
theorem getRecentActivity_sorts_in_place (s : Store) (limit : Nat) :
    (DataManager.getExaminations (DataManager.getRecentActivity s limit).2).Perm
        (DataManager.getExaminations s) ∧
    List.Sorted dateDesc
        (DataManager.getExaminations (DataManager.getRecentActivity s limit).2) ∧
    (DataManager.getRecentActivity s limit).2.patients = s.patients ∧
    (DataManager.getRecentActivity s limit).2.files = s.files :=
  ⟨List.perm_insertionSort dateDesc s.examinations,
   List.sorted_insertionSort dateDesc s.examinations, rfl, rfl⟩

/-! ### Search engine — searchPatients and its filter callback -/

/-- Lowercasing a basic-latin character is idempotent. -/
theorem toLower_toLower (c : Char) : c.toLower.toLower = c.toLower := by
  by_cases h : 65 ≤ c.toNat ∧ c.toNat ≤ 90
  · rw [← Char.ofNat_toNat c]
    obtain ⟨h1, h2⟩ := h
    generalize c.toNat = n at h1 h2 ⊢
    interval_cases n <;> decide
  · have hfix : c.toLower = c := by
      simp only [Char.toLower, ge_iff_le]
      rw [if_neg h]
    rw [hfix]
    exact hfix

/-- `toLowerCase` is idempotent on strings. -/
theorem toLowerStr_idem (s : Str) : JS.toLowerStr (JS.toLowerStr s) = JS.toLowerStr s := by
  induction s with
  | nil => rfl
  | cons c cs ih =>
    simp only [JS.toLowerStr, List.map_cons] at ih ⊢
    rw [toLower_toLower, ih]

/-- A prefix stays a prefix under a character-wise map. -/
theorem startsWith_map (f : Char → Char) :
    ∀ s t : Str, JS.startsWith s t = true → JS.startsWith (s.map f) (t.map f) = true := by
  intro s
  induction s with
  | nil =>
    intro t h
    cases t with
    | nil => rfl
    | cons d ds => simp [JS.startsWith] at h
  | cons c cs ih =>
    intro t h
    cases t with
    | nil => rfl
    | cons d ds =>
      simp only [JS.startsWith, Bool.and_eq_true, decide_eq_true_eq] at h
      obtain ⟨hcd, hrest⟩ := h
      simp only [List.map_cons, JS.startsWith, Bool.and_eq_true, decide_eq_true_eq]
      exact ⟨by rw [hcd], ih ds hrest⟩

/-- A substring stays a substring under a character-wise map. -/
theorem includes_map (f : Char → Char) :
    ∀ s t : Str, JS.includes s t = true → JS.includes (s.map f) (t.map f) = true := by
  intro s
  induction s with
  | nil =>
    intro t h
    simp only [JS.includes, List.isEmpty_iff] at h
    subst h
    rfl
  | cons c cs ih =>
    intro t h
    simp only [JS.includes, Bool.or_eq_true] at h
    simp only [List.map_cons, JS.includes, Bool.or_eq_true]
    cases h with
    | inl hs =>
      left
      have := startsWith_map f (c :: cs) t hs
      simpa using this
    | inr hi => exact Or.inr (ih t hi)

namespace DataManager

/-- One patient's filter callback in `searchPatients`: the five
`includes` clauses chained with short-circuiting `||`;
`patient.email.toLowerCase()` is evaluated unguarded, so a patient
without an email makes the callback throw a `TypeError` (modelled as
`Except.error ()`) as soon as the first three clauses have all
failed. -/
def patientMatches (term : Str) (p : Patient) : Except Unit Bool :=
  if JS.includes (JS.toLowerStr p.firstName) term then Except.ok true
  else if JS.includes (JS.toLowerStr p.lastName) term then Except.ok true
  else if JS.includes p.phoneNumber term then Except.ok true
  else
    match p.email with
    | none => Except.error ()
    | some e =>
      Except.ok (JS.includes (JS.toLowerStr e) term
        || JS.includes (JS.toLowerStr (p.firstName ++ [' '] ++ p.lastName)) term)

/-- `Array.prototype.filter` with a callback that may throw: elements
are visited left to right and the first throw aborts the whole call. -/
def filterExcept {α : Type} (f : α → Except Unit Bool) : List α → Except Unit (List α)
  | [] => Except.ok []
  | x :: xs =>
    match f x with
    | Except.error e => Except.error e
    | Except.ok b =>
      match filterExcept f xs with
      | Except.error e => Except.error e
      | Except.ok rest => Except.ok (if b then x :: rest else rest)

/-- `searchPatients(query)`: an empty or whitespace-only query returns
all patients (a defensive copy, in original order); otherwise the
patients array is filtered by the lowercased query. -/
def searchPatients (s : Store) (query : Str) : Except Unit (List Patient) :=
  if JS.isBlank query then Except.ok (getPatients s)
  else
    let searchTerm := JS.toLowerStr query
    filterExcept (patientMatches searchTerm) s.patients

end DataManager

/-- Every element of a successful filter result occurs in the input and
satisfied the callback. -/
theorem filterExcept_ok_mem {α : Type} (f : α → Except Unit Bool) :
    ∀ l r, DataManager.filterExcept f l = Except.ok r →
      ∀ x ∈ r, x ∈ l ∧ f x = Except.ok true := by
  intro l
  induction l with
  | nil =>
    intro r h x hx
    simp only [DataManager.filterExcept, Except.ok.injEq] at h
    subst h
    cases hx
  | cons y ys ih =>
    intro r h x hx
    simp only [DataManager.filterExcept] at h
    cases hfy : f y with
    | error e => rw [hfy] at h; cases h
    | ok b =>
      rw [hfy] at h
      cases hrec : DataManager.filterExcept f ys with
      | error e => rw [hrec] at h; cases h
      | ok rest =>
        rw [hrec] at h
        simp only [Except.ok.injEq] at h
        subst h
        cases b with
        | true =>
          simp only [if_true] at hx
          cases hx with
          | head => exact ⟨List.mem_cons_self y ys, hfy⟩
          | tail _ hm =>
            obtain ⟨hmem, hok⟩ := ih rest hrec x hm
            exact ⟨List.mem_cons_of_mem y hmem, hok⟩
        | false =>
          rw [if_neg Bool.false_ne_true] at hx
          obtain ⟨hmem, hok⟩ := ih rest hrec x hx
          exact ⟨List.mem_cons_of_mem y hmem, hok⟩

/-- If any element's callback throws, the whole filter call throws. -/
theorem filterExcept_error_of_mem {α : Type} (f : α → Except Unit Bool) :
    ∀ l (x : α), x ∈ l → f x = Except.error () →
      DataManager.filterExcept f l = Except.error () := by
  intro l
  induction l with
  | nil => intro x hx; cases hx
  | cons y ys ih =>
    intro x hx hfx
    simp only [DataManager.filterExcept]
    cases hx with
    | head => rw [hfx]
    | tail _ hm =>
      cases hfy : f y with
      | error e => cases e; rfl
      | ok b => rw [ih x hm hfx]

/-- The query is contained case-insensitively in a field: the
lower-cased field has the lower-cased query as a substring. -/
def containsCI (field q : Str) : Prop :=
  JS.includes (JS.toLowerStr field) (JS.toLowerStr q) = true

/-- A store containing only the emailed patient, on which a filtering
search completes without throwing. -/
def searchStore : Store :=
  { patients := [pAnn], examinations := [], files := [] }

/-! ### C9 — search contract -/

/-- C9: an empty or whitespace query returns all patients unchanged in
insertion order; the function is deterministic (same store and query,
same result); and every patient returned by a successful filtering
search contains the query case-insensitively in a searched field
(firstName, lastName, phoneNumber, email, or the concatenation
"firstName lastName"). -/
theorem searchPatients_contract (s : Store) (q : Str) :
    (JS.isBlank q = true →
      DataManager.searchPatients s q = Except.ok (DataManager.getPatients s)) ∧
    DataManager.searchPatients s q = DataManager.searchPatients s q ∧
    (JS.isBlank q = false → ∀ r, DataManager.searchPatients s q = Except.ok r →
      ∀ p ∈ r,
        containsCI p.firstName q ∨ containsCI p.lastName q ∨
        containsCI p.phoneNumber q ∨
        (∃ e, p.email = some e ∧ containsCI e q) ∨
        containsCI (p.firstName ++ [' '] ++ p.lastName) q) := by
  refine ⟨?_, rfl, ?_⟩
  · intro hb
    simp [DataManager.searchPatients, hb]
  · intro hq r hr p hp
    simp only [DataManager.searchPatients, hq, Bool.false_eq_true, if_false] at hr
    obtain ⟨hmem, hmatch⟩ := filterExcept_ok_mem _ s.patients r hr p hp
    rw [DataManager.patientMatches] at hmatch
    by_cases h1 : JS.includes (JS.toLowerStr p.firstName) (JS.toLowerStr q) = true
    · exact Or.inl h1
    rw [if_neg h1] at hmatch
    by_cases h2 : JS.includes (JS.toLowerStr p.lastName) (JS.toLowerStr q) = true
    · exact Or.inr (Or.inl h2)
    rw [if_neg h2] at hmatch
    by_cases h3 : JS.includes p.phoneNumber (JS.toLowerStr q) = true
    · refine Or.inr (Or.inr (Or.inl ?_))
      have hmap : JS.includes (JS.toLowerStr p.phoneNumber)
          (JS.toLowerStr (JS.toLowerStr q)) = true :=
        includes_map Char.toLower p.phoneNumber (JS.toLowerStr q) h3
      rw [toLowerStr_idem q] at hmap
      exact hmap
    rw [if_neg h3] at hmatch
    cases hmail : p.email with
    | none =>
      rw [hmail] at hmatch
      exact Except.noConfusion hmatch
    | some e =>
      rw [hmail] at hmatch
      simp only [Except.ok.injEq, Bool.or_eq_true] at hmatch
      cases hmatch with
      | inl hb1 => exact Or.inr (Or.inr (Or.inr (Or.inl ⟨e, rfl, hb1⟩)))
      | inr hb2 => exact Or.inr (Or.inr (Or.inr (Or.inr hb2)))

/-- C9 witness: a whitespace query on the concrete store returns all
patients, and the match found by searching "ann" on the single-patient
store indeed contains the query in a searched field. -/
theorem searchPatients_contract_witness :
    DataManager.searchPatients testStore (str " ")
        = Except.ok (DataManager.getPatients testStore) ∧
    (containsCI pAnn.firstName (str "ann") ∨ containsCI pAnn.lastName (str "ann") ∨
      containsCI pAnn.phoneNumber (str "ann") ∨
      (∃ e, pAnn.email = some e ∧ containsCI e (str "ann")) ∨
      containsCI (pAnn.firstName ++ [' '] ++ pAnn.lastName) (str "ann")) :=
  ⟨(searchPatients_contract testStore (str " ")).1 (by decide),
   (searchPatients_contract searchStore (str "ann")).2.2 (by decide) [pAnn] rfl pAnn
     (by decide)⟩

/-! ### C10 — searchPatients throws on a missing email -/

/-- C10: when some patient in the store has no email, every
non-blank query that fails that patient's firstName, lastName, and
phoneNumber clauses makes `searchPatients` throw a `TypeError`
(`patient.email.toLowerCase()` is evaluated unguarded), instead of
skipping or not matching the patient. -/
theorem searchPatients_throws_on_missing_email (s : Store) (q : Str) (p : Patient)
    (hmem : p ∈ s.patients) (hmail : p.email = none)
    (hq : JS.isBlank q = false)
    (h1 : JS.includes (JS.toLowerStr p.firstName) (JS.toLowerStr q) = false)
    (h2 : JS.includes (JS.toLowerStr p.lastName) (JS.toLowerStr q) = false)
    (h3 : JS.includes p.phoneNumber (JS.toLowerStr q) = false) :
    DataManager.searchPatients s q = Except.error () := by
  have hcall : DataManager.patientMatches (JS.toLowerStr q) p = Except.error () := by
    rw [DataManager.patientMatches]
    rw [if_neg (by simp [h1]), if_neg (by simp [h2]), if_neg (by simp [h3]), hmail]
  simp only [DataManager.searchPatients, hq, Bool.false_eq_true, if_false]
  exact filterExcept_error_of_mem _ s.patients p hmem hcall

/-- C10 witness: querying "ann" on the concrete store reaches the
email-less patient (whose name and phone do not match) and the search
throws. -/
theorem searchPatients_throws_on_missing_email_witness :
    DataManager.searchPatients testStore (str "ann") = Except.error () :=
  searchPatients_throws_on_missing_email testStore (str "ann") pNoMail (by decide) rfl
    (by decide) (by decide) (by decide) (by decide)

/-! ### Persistence gateway — loadDataFromStorage and the seed data -/

/-- One namespaced localStorage entry for a collection: `missing` when
`getItem` returned `null` (or an empty string — both falsy);
`malformed` when a string is present but `JSON.parse` throws;
`parsed v` when a string is present and parses to the collection `v`. -/
inductive Cell (α : Type) where
  | missing
  | malformed
  | parsed (value : List α)
deriving DecidableEq

/-- The three namespaced storage keys. -/
structure Storage where
  patients : Cell Patient
  examinations : Cell Exam
  files : Cell FileRec
deriving DecidableEq

/-- Seed patient 1 of `loadSamplePatients`. -/
def samplePatient1 : Patient :=
  { id := 1
    firstName := str "John"
    lastName := str "Doe"
    dateOfBirth := str "1985-03-15"
    gender := str "male"
    phoneNumber := str "(555) 123-4567"
    email := some (str "john.doe@email.com")
    address := str "123 Main Street, Springfield, IL 62701"
    medicalHistory := str "Hypertension (2019), No known allergies, Takes Lisinopril 10mg daily"
    insuranceInfo := str "Blue Cross Blue Shield - Policy #BCBS123456789"
    emergencyContact :=
      { name := str "Jane Doe", relationship := str "Spouse", phone := str "(555) 123-4568" }
    dateAdded := str "2024-01-15T09:00:00.000Z"
    lastVisit := some (str "2024-08-01T14:30:00.000Z")
    status := str "active" }

/-- Seed patient 2 of `loadSamplePatients`. -/
def samplePatient2 : Patient :=
  { id := 2
    firstName := str "Jane"
    lastName := str "Smith"
    dateOfBirth := str "1992-07-22"
    gender := str "female"
    phoneNumber := str "(555) 987-6543"
    email := some (str "jane.smith@email.com")
    address := str "456 Oak Avenue, Springfield, IL 62702"
    medicalHistory :=
      str "Type 2 Diabetes (2021), Penicillin allergy, Takes Metformin 500mg twice daily"
    insuranceInfo := str "Aetna - Policy #AETNA987654321"
    emergencyContact :=
      { name := str "Robert Smith", relationship := str "Father",
        phone := str "(555) 987-6544" }
    dateAdded := str "2024-02-10T10:15:00.000Z"
    lastVisit := some (str "2024-07-28T11:00:00.000Z")
    status := str "active" }

/-- Seed patient 3 of `loadSamplePatients`. -/
def samplePatient3 : Patient :=
  { id := 3
    firstName := str "Robert"
    lastName := str "Johnson"
    dateOfBirth := str "1978-11-08"
    gender := str "male"
    phoneNumber := str "(555) 456-7890"
    email := some (str "robert.johnson@email.com")
    address := str "789 Pine Street, Springfield, IL 62703"
    medicalHistory :=
      str "High cholesterol (2020), Previous appendectomy (2015), No known allergies"
    insuranceInfo := str "United Healthcare - Policy #UHC456789123"
    emergencyContact :=
      { name := str "Mary Johnson", relationship := str "Wife",
        phone := str "(555) 456-7891" }
    dateAdded := str "2024-01-28T08:45:00.000Z"
    lastVisit := some (str "2024-07-15T16:20:00.000Z")
    status := str "active" }

/-- The fixed seed patients (`loadSamplePatients`). -/
def samplePatients : List Patient := [samplePatient1, samplePatient2, samplePatient3]

/-- The fixed seed examinations (`loadSampleExaminations`), restricted
to the modelled fields. -/
def sampleExaminations : List Exam :=
  [{ id := 1
     patientId := 1
     date := str "2024-08-01T14:30:00.000Z"
     type := str "routine"
     diagnosis := some (str "Essential hypertension, well-controlled")
     chiefComplaint := some (str "Annual physical examination")
     status := str "completed" },
   { id := 2
     patientId := 2
     date := str "2024-07-28T11:00:00.000Z"
     type := str "follow-up"
     diagnosis := some (str "Type 2 diabetes mellitus, good glycemic control")
     chiefComplaint := some (str "Diabetes follow-up, checking blood sugar control")
     status := str "completed" },
   { id := 3
     patientId := 3
     date := str "2024-07-15T16:20:00.000Z"
     type := str "consultation"
     diagnosis := some (str "Atypical chest pain, likely musculoskeletal. Rule out cardiac etiology.")
     chiefComplaint := some (str "Chest discomfort and shortness of breath during exercise")
     status := str "completed" }]

/-- The fixed seed files (`loadSampleFiles`). -/
def sampleFiles : List FileRec :=
  [{ id := 1
     patientId := 1
     name := str "Chest_X-Ray_2024-08-01.jpg"
     type := str "image/jpeg"
     size := 2048576
     category := str "imaging"
     description := str "Annual chest X-ray - normal"
     dateUploaded := str "2024-08-01T14:45:00.000Z"
     uploadedBy := str "Dr. Smith"
     tags := [str "chest", str "x-ray", str "annual", str "normal"] },
   { id := 2
     patientId := 1
     name := str "Lab_Results_2024-07-30.pdf"
     type := str "application/pdf"
     size := 512000
     category := str "lab-results"
     description := str "Comprehensive metabolic panel and lipid panel"
     dateUploaded := str "2024-07-30T09:15:00.000Z"
     uploadedBy := str "Lab Tech"
     tags := [str "lab", str "blood-work", str "metabolic", str "lipid"] },
   { id := 3
     patientId := 2
     name := str "HbA1c_Results_2024-07-25.pdf"
     type := str "application/pdf"
     size := 256000
     category := str "lab-results"
     description := str "Hemoglobin A1c test results"
     dateUploaded := str "2024-07-25T10:30:00.000Z"
     uploadedBy := str "Lab Tech"
     tags := [str "diabetes", str "hba1c", str "glucose", str "lab"] },
   { id := 4
     patientId := 3
     name := str "EKG_2024-07-15.pdf"
     type := str "application/pdf"
     size := 1024000
     category := str "cardiac"
     description := str "12-lead electrocardiogram"
     dateUploaded := str "2024-07-15T16:30:00.000Z"
     uploadedBy := str "Dr. Smith"
     tags := [str "ekg", str "cardiac", str "heart", str "rhythm"] }]

/-- `saveDataToStorage()`: serialize all three current collections to
their keys (a successful write is assumed here; the failure branch of
the source only logs and notifies). -/
def DataManager.saveDataToStorage (s : Store) : Storage :=
  { patients := Cell.parsed s.patients
    examinations := Cell.parsed s.examinations
    files := Cell.parsed s.files }

/-- `loadSampleData()`: replace all three collections by the seed. -/
def DataManager.loadSampleData : Store :=
  { patients := samplePatients
    examinations := sampleExaminations
    files := sampleFiles }

/-- `loadDataFromStorage()`: the three `getItem` reads happen up front;
then, inside one `try` block and per key in order
patients/examinations/files, a present key is `JSON.parse`d into the
collection while a missing key loads its seed and immediately calls
`saveDataToStorage()` (which writes all three keys from the current
collections).  A `JSON.parse` throw lands in the single `catch`, which
calls `loadSampleData()` — replacing all three in-memory collections
with seed data — without saving.  Takes the pre-call collections and
storage; returns the resulting collections and storage. -/
def DataManager.loadDataFromStorage (s0 : Store) (st0 : Storage) : Store × Storage :=
  let step1 : Except Storage (Store × Storage) :=
    match st0.patients with
    | Cell.parsed l => Except.ok ({ s0 with patients := l }, st0)
    | Cell.missing =>
      let s := { s0 with patients := samplePatients }
      Except.ok (s, DataManager.saveDataToStorage s)
    | Cell.malformed => Except.error st0
  let step2 : Except Storage (Store × Storage) :=
    match step1 with
    | Except.error st => Except.error st
    | Except.ok (s1, st1) =>
      match st0.examinations with
      | Cell.parsed l => Except.ok ({ s1 with examinations := l }, st1)
      | Cell.missing =>
        let s := { s1 with examinations := sampleExaminations }
        Except.ok (s, DataManager.saveDataToStorage s)
      | Cell.malformed => Except.error st1
  let step3 : Except Storage (Store × Storage) :=
    match step2 with
    | Except.error st => Except.error st
    | Except.ok (s2, st2) =>
      match st0.files with
      | Cell.parsed l => Except.ok ({ s2 with files := l }, st2)
      | Cell.missing =>
        let s := { s2 with files := sampleFiles }
        Except.ok (s, DataManager.saveDataToStorage s)
      | Cell.malformed => Except.error st2
  match step3 with
  | Except.ok r => r
  | Except.error st => (DataManager.loadSampleData, st)

/-- Storage state with patients present and parsable, examinations
missing, files present and parsable. -/
def storageA : Storage :=
  { patients := Cell.parsed [pAnn]
    examinations := Cell.missing
    files := Cell.parsed [] }

/-- Storage state whose examinations key is present but unparsable. -/
def storageB : Storage :=
  { patients := Cell.parsed [pAnn]
    examinations := Cell.malformed
    files := Cell.parsed [] }

/-! ### C4 — per-key independence of loadOrSeed -/

/-- C4 counterexample: the claim says a present-and-parsable key loads
from storage unchanged even when another key is unparsable; with the
patients key parsing to `[pAnn]` and the examinations key unparsable,
the load discards the stored patients (the catch path replaces all
three collections with seed data). -/
theorem loadDataFromStorage_malformed_not_per_key :
    (DataManager.loadDataFromStorage emptyStore storageB).1.patients ≠ [pAnn] := by
  decide

/-- C4 amended: the per-key treatment holds only when no present key is
unparsable.  In that case each key loads from storage when present and
falls back to its seed when missing (partial presence allowed), and
every missing key's seed is immediately persisted.  If any present key
is unparsable, the whole load falls into the catch: all three
in-memory collections are replaced by the seed dataset, and no seed is
persisted for the unparsable key. -/
theorem loadDataFromStorage_semantics (s0 : Store) (st0 : Storage) :
    (st0.patients ≠ Cell.malformed → st0.examinations ≠ Cell.malformed →
      st0.files ≠ Cell.malformed →
      ((DataManager.loadDataFromStorage s0 st0).1.patients
          = (match st0.patients with | Cell.parsed l => l | _ => samplePatients)) ∧
      ((DataManager.loadDataFromStorage s0 st0).1.examinations
          = (match st0.examinations with | Cell.parsed l => l | _ => sampleExaminations)) ∧
      ((DataManager.loadDataFromStorage s0 st0).1.files
          = (match st0.files with | Cell.parsed l => l | _ => sampleFiles)) ∧
      (st0.patients = Cell.missing →
        (DataManager.loadDataFromStorage s0 st0).2.patients = Cell.parsed samplePatients) ∧
      (st0.examinations = Cell.missing →
        (DataManager.loadDataFromStorage s0 st0).2.examinations
          = Cell.parsed sampleExaminations) ∧
      (st0.files = Cell.missing →
        (DataManager.loadDataFromStorage s0 st0).2.files = Cell.parsed sampleFiles)) ∧
    ((st0.patients = Cell.malformed ∨ st0.examinations = Cell.malformed ∨
        st0.files = Cell.malformed) →
      (DataManager.loadDataFromStorage s0 st0).1 = DataManager.loadSampleData) := by
  obtain ⟨cp, ce, cf⟩ := st0
  cases cp <;> cases ce <;> cases cf <;>
    simp [DataManager.loadDataFromStorage, DataManager.saveDataToStorage]

/-- C4 witness: on a storage with parsable patients, missing
examinations and parsable files, the load seeds exactly the
examinations (keeping the stored patients) and persists the seed
examinations; and on a storage with an unparsable examinations key the
load yields the full seed dataset in memory. -/
theorem loadDataFromStorage_semantics_witness :
    ((DataManager.loadDataFromStorage emptyStore storageA).1.patients = [pAnn] ∧
      (DataManager.loadDataFromStorage emptyStore storageA).1.examinations
        = sampleExaminations ∧
      (DataManager.loadDataFromStorage emptyStore storageA).2.examinations
        = Cell.parsed sampleExaminations) ∧
    (DataManager.loadDataFromStorage emptyStore storageB).1 = DataManager.loadSampleData :=
  ⟨⟨((loadDataFromStorage_semantics emptyStore storageA).1 (by decide) (by decide)
        (by decide)).1,
    ((loadDataFromStorage_semantics emptyStore storageA).1 (by decide) (by decide)
        (by decide)).2.1,
    ((loadDataFromStorage_semantics emptyStore storageA).1 (by decide) (by decide)
        (by decide)).2.2.2.2.1 rfl⟩,
   (loadDataFromStorage_semantics emptyStore storageB).2 (Or.inr (Or.inl rfl))⟩

/-! ### Aggregation engine — getTopDiagnoses -/

/-- A word character of the regex `\w`. -/
def jsIsWordChar (c : Char) : Bool := c.isAlphanum || c = '_'

/-- The scanner behind `Utils.capitalize`: outside a regex match
(`inWord = false`) a word character opens a match of `\w\S*` and is
upper-cased, any other character is copied; inside a match a non-space
character is lower-cased and whitespace closes the match. -/
def jsCapitalizeAux : Bool → Str → Str
  | _, [] => []
  | true, c :: rest =>
    if c.isWhitespace then c :: jsCapitalizeAux false rest
    else c.toLower :: jsCapitalizeAux true rest
  | false, c :: rest =>
    if jsIsWordChar c then c.toUpper :: jsCapitalizeAux true rest
    else c :: jsCapitalizeAux false rest

/-- `Utils.capitalize`: every regex match of `\w\S*` (a word character
followed by a maximal run of non-space characters) is replaced by its
first character upper-cased followed by the rest lower-cased. -/
def jsCapitalize (s : Str) : Str := jsCapitalizeAux false s

/-- The normalized grouping key of an examination's diagnosis: the
guard `exam.diagnosis && exam.diagnosis.trim()` requires a present,
non-blank text, and the key is the trimmed, lower-cased text. -/
def normDiagnosis (e : Exam) : Option Str :=
  match e.diagnosis with
  | none => none
  | some d => if (JS.trim d).isEmpty then none else some (JS.toLowerStr (JS.trim d))

/-- Increment the tally for a key in the `diagnosisCount` object;
`Object.entries` later reports keys in insertion order, so the object
is modelled as an association list. -/
def bumpCount (key : Str) : List (Str × Nat) → List (Str × Nat)
  | [] => [(key, 1)]
  | (k, n) :: rest =>
    if k = key then (k, n + 1) :: rest else (k, n) :: bumpCount key rest

/-- One iteration of the `examinations.forEach` tally loop. -/
def tallyStep (acc : List (Str × Nat)) (e : Exam) : List (Str × Nat) :=
  match normDiagnosis e with
  | some key => bumpCount key acc
  | none => acc

/-- The `examinations.forEach` tally loop of `getTopDiagnoses`. -/
def diagnosisCounts (exams : List Exam) : List (Str × Nat) :=
  exams.foldl tallyStep []

/-- The sort comparator `([,a],[,b]) => b - a`: count descending. -/
def countDesc (x y : Str × Nat) : Prop := y.2 ≤ x.2

instance : DecidableRel countDesc := fun x y => Nat.decLe y.2 x.2

instance : IsTotal (Str × Nat) countDesc := ⟨fun x y => Nat.le_total y.2 x.2⟩

instance : IsTrans (Str × Nat) countDesc := ⟨fun _ _ _ hab hbc => Nat.le_trans hbc hab⟩

/-- One row of the top-diagnoses view. -/
structure DiagnosisStat where
  diagnosis : Str
  count : Nat
  percentage : Nat
deriving DecidableEq

/-- `Math.round((count / total) * 100)` over exact rationals (the
JavaScript Float64 arithmetic is idealized as exact): for a
nonnegative argument, `Math.round(x)` is `⌊x + 1/2⌋`, which for the
ratio at hand is the integer division below (see
`jsRoundPct_eq_round`). -/
def jsRoundPct (count total : Nat) : Nat := (200 * count + total) / (2 * total)

/-- The integer-division form of `jsRoundPct` agrees with rounding the
exact rational `(count / total) * 100` half-up. -/
theorem jsRoundPct_eq_round (count total : Nat) (h : 0 < total) :
    (jsRoundPct count total : ℤ) = ⌊((count : ℚ) / total) * 100 + 1 / 2⌋ := by
  have ht : (total : ℚ) ≠ 0 := Nat.cast_ne_zero.mpr h.ne'
  have hform : ((count : ℚ) / total) * 100 + 1 / 2
      = ((200 * count + total : ℕ) : ℚ) / ((2 * total : ℕ) : ℚ) := by
    push_cast
    field_simp
    ring
  rw [hform, Rat.floor_natCast_div_natCast]
  simp [jsRoundPct]

/-- `getTopDiagnoses()`: tally the non-blank diagnoses
case-insensitively, sort the entries by count descending (a stable
sort, modelled by `insertionSort`), keep the first five and format
each with `Utils.capitalize` and a percentage whose denominator is
`examinations.length` — the number of ALL examinations, not only those
carrying a diagnosis — or 0 when there are no examinations. -/
def DashboardManager.getTopDiagnoses (s : Store) : List DiagnosisStat :=
  let exams := DataManager.getExaminations s
  let counts := diagnosisCounts exams
  ((counts.insertionSort countDesc).take 5).map fun kn =>
    { diagnosis := jsCapitalize kn.1
      count := kn.2
      percentage :=
        if exams.length > 0 then jsRoundPct kn.2 exams.length else 0 }

/-! ### C7 — top diagnoses -/

/-- C7 counterexample: on the concrete store — two examinations, only
one carrying a (non-empty) diagnosis — the claim's percentage
(count divided by the number of examinations with a non-empty
diagnosis: 1/1, i.e. 100) differs from what the code reports, namely
`round(1/2 × 100) = 50`, because the code divides by the total number
of examinations. -/
theorem getTopDiagnoses_percentage_denominator :
    (DashboardManager.getTopDiagnoses testStore).map DiagnosisStat.percentage ≠ [100] := by
  decide

/-- Lookup of a key's tally in the association list. -/
def lookupCount : List (Str × Nat) → Str → Nat
  | [], _ => 0
  | (k, n) :: rest, key => if k = key then n else lookupCount rest key

/-- Bumping a key raises exactly that key's tally by one. -/
theorem lookupCount_bump (key k : Str) :
    ∀ acc, lookupCount (bumpCount key acc) k
      = lookupCount acc k + (if k = key then 1 else 0) := by
  intro acc
  induction acc with
  | nil =>
    by_cases h : k = key
    · subst h; simp [bumpCount, lookupCount]
    · have h' : ¬ key = k := fun e => h e.symm
      simp [bumpCount, lookupCount, h, h']
  | cons kn rest ih =>
    obtain ⟨k0, n0⟩ := kn
    by_cases h0 : k0 = key
    · subst h0
      simp only [bumpCount, if_pos rfl]
      by_cases h1 : k0 = k
      · subst h1
        simp [lookupCount]
      · have h1' : ¬ k = k0 := fun e => h1 e.symm
        simp [lookupCount, h1, h1']
    · simp only [bumpCount, if_neg h0]
      by_cases h1 : k0 = k
      · subst h1
        have h2 : ¬ k0 = key := h0
        have h2' : ¬ key = k0 := fun e => h0 e.symm
        simp [lookupCount, h2]
      · simp [lookupCount, h1, ih]

/-- The tally after the fold counts, for each key, the examinations
whose normalized diagnosis is that key. -/
theorem lookupCount_foldl (key : Str) :
    ∀ (exams : List Exam) (acc : List (Str × Nat)),
      lookupCount (exams.foldl tallyStep acc) key
        = lookupCount acc key
          + exams.countP (fun e => decide (normDiagnosis e = some key)) := by
  intro exams
  induction exams with
  | nil => intro acc; simp
  | cons e rest ih =>
    intro acc
    rw [List.foldl_cons, List.countP_cons, ih (tallyStep acc e)]
    by_cases hp : normDiagnosis e = some key
    · have ht : tallyStep acc e = bumpCount key acc := by simp [tallyStep, hp]
      rw [ht, lookupCount_bump key key acc]
      simp [hp]
      omega
    · cases hne : normDiagnosis e with
      | none =>
        have ht : tallyStep acc e = acc := by simp [tallyStep, hne]
        rw [ht]
        simp [hne]
      | some k2 =>
        have hk : ¬ key = k2 := fun h => hp (by rw [hne, h])
        have hk2 : ¬ k2 = key := fun e => hk e.symm
        have ht : tallyStep acc e = bumpCount k2 acc := by simp [tallyStep, hne]
        rw [ht, lookupCount_bump k2 key acc]
        simp [hp, hk, hk2]

/-- Which keys appear after a bump. -/
theorem mem_keys_bump (key x : Str) :
    ∀ l : List (Str × Nat),
      (x ∈ (bumpCount key l).map Prod.fst ↔ x ∈ l.map Prod.fst ∨ x = key) := by
  intro l
  induction l with
  | nil => simp [bumpCount]
  | cons kn rest ih =>
    obtain ⟨k0, n0⟩ := kn
    by_cases h : k0 = key
    · subst h
      have hb : bumpCount k0 ((k0, n0) :: rest) = (k0, n0 + 1) :: rest := by
        simp [bumpCount]
      rw [hb]
      simp only [List.map_cons, List.mem_cons]
      tauto
    · simp only [bumpCount, if_neg h, List.map_cons, List.mem_cons, ih]
      tauto

/-- Bumping preserves distinctness of the keys. -/
theorem keys_nodup_bump (key : Str) :
    ∀ l : List (Str × Nat),
      (l.map Prod.fst).Nodup → ((bumpCount key l).map Prod.fst).Nodup := by
  intro l
  induction l with
  | nil => intro _; simp [bumpCount]
  | cons kn rest ih =>
    obtain ⟨k0, n0⟩ := kn
    intro hnd
    simp only [List.map_cons, List.nodup_cons] at hnd
    obtain ⟨hnotin, hrest⟩ := hnd
    by_cases h : k0 = key
    · subst h
      have hb : bumpCount k0 ((k0, n0) :: rest) = (k0, n0 + 1) :: rest := by
        simp [bumpCount]
      rw [hb]
      simp only [List.map_cons, List.nodup_cons]
      exact ⟨hnotin, hrest⟩
    · simp only [bumpCount, if_neg h, List.map_cons, List.nodup_cons]
      refine ⟨?_, ih hrest⟩
      intro hc
      rcases (mem_keys_bump key k0 rest).mp hc with hin | heq
      · exact hnotin hin
      · exact h heq

/-- The fold keeps the tally's keys distinct. -/
theorem keys_nodup_foldl :
    ∀ (exams : List Exam) (acc : List (Str × Nat)),
      (acc.map Prod.fst).Nodup → ((exams.foldl tallyStep acc).map Prod.fst).Nodup := by
  intro exams
  induction exams with
  | nil => intro acc h; exact h
  | cons e rest ih =>
    intro acc h
    rw [List.foldl_cons]
    apply ih
    cases hne : normDiagnosis e with
    | none => simpa [tallyStep, hne] using h
    | some k2 =>
      simp only [tallyStep, hne]
      exact keys_nodup_bump k2 acc h

/-- With distinct keys, membership determines the lookup. -/
theorem lookupCount_of_mem :
    ∀ l : List (Str × Nat), (l.map Prod.fst).Nodup →
      ∀ k n, (k, n) ∈ l → lookupCount l k = n := by
  intro l
  induction l with
  | nil => intro _ k n h; cases h
  | cons kn rest ih =>
    obtain ⟨k0, n0⟩ := kn
    intro hnd k n hm
    simp only [List.map_cons, List.nodup_cons] at hnd
    obtain ⟨hnot, hrest⟩ := hnd
    cases hm with
    | head => simp [lookupCount]
    | tail _ hm2 =>
      have hk : ¬ k0 = k := by
        intro he
        subst he
        exact hnot (List.mem_map_of_mem Prod.fst hm2)
      simp only [lookupCount, if_neg hk]
      exact ih hrest k n hm2

/-- C7 amended: `getTopDiagnoses` groups the non-blank diagnosis text
case-insensitively, sorts the groups by count descending, takes at
most five, and reports for each group the capitalized key, the number
of examinations whose normalized diagnosis is that key, and
percentage = count divided by the TOTAL number of examinations
(including those without any diagnosis), times 100, rounded — 0 when
there are no examinations at all. -/
theorem getTopDiagnoses_spec (s : Store) :
    (DashboardManager.getTopDiagnoses s).length ≤ 5 ∧
    List.Sorted (fun a b => DiagnosisStat.count b ≤ DiagnosisStat.count a)
      (DashboardManager.getTopDiagnoses s) ∧
    (∀ stat ∈ DashboardManager.getTopDiagnoses s, ∃ key,
      stat.diagnosis = jsCapitalize key ∧
      stat.count = s.examinations.countP (fun e => decide (normDiagnosis e = some key)) ∧
      stat.percentage = (if s.examinations.length > 0
        then jsRoundPct stat.count s.examinations.length else 0)) := by
  refine ⟨?_, ?_, ?_⟩
  · simp only [DashboardManager.getTopDiagnoses, List.length_map, List.length_take]
    exact min_le_left _ _
  · have hs : List.Sorted countDesc
        ((diagnosisCounts (DataManager.getExaminations s)).insertionSort countDesc) :=
      List.sorted_insertionSort countDesc _
    have ht : List.Sorted countDesc
        (((diagnosisCounts (DataManager.getExaminations s)).insertionSort countDesc).take
          5) :=
      List.Pairwise.sublist (List.take_sublist 5 _) hs
    simp only [DashboardManager.getTopDiagnoses, List.Sorted, List.pairwise_map]
    exact ht
  · intro stat hst
    simp only [DashboardManager.getTopDiagnoses, List.mem_map] at hst
    obtain ⟨kn, hkn, hstat⟩ := hst
    have hkn2 : kn ∈ (diagnosisCounts (DataManager.getExaminations s)).insertionSort
        countDesc :=
      List.mem_of_mem_take hkn
    have hknc : kn ∈ diagnosisCounts (DataManager.getExaminations s) :=
      (List.perm_insertionSort countDesc _).mem_iff.mp hkn2
    obtain ⟨k, n⟩ := kn
    have hnodup : ((diagnosisCounts (DataManager.getExaminations s)).map Prod.fst).Nodup :=
      keys_nodup_foldl (DataManager.getExaminations s) [] (by simp)
    have hl : lookupCount (diagnosisCounts (DataManager.getExaminations s)) k = n :=
      lookupCount_of_mem _ hnodup k n hknc
    have hcount :
        n = (DataManager.getExaminations s).countP
          (fun e => decide (normDiagnosis e = some k)) := by
      have h2 := lookupCount_foldl k (DataManager.getExaminations s) []
      rw [← hl]
      simpa [diagnosisCounts, lookupCount] using h2
    subst hstat
    exact ⟨k, rfl, hcount, rfl⟩

/-- C7 amended witness: on the concrete store (two examinations, one
diagnosis "Flu"), the single reported row carries the capitalized key,
count 1, and percentage 50 = round(1/2 × 100). -/
theorem getTopDiagnoses_spec_witness :
    ∃ key, (⟨str "Flu", 1, 50⟩ : DiagnosisStat).diagnosis = jsCapitalize key ∧
      (⟨str "Flu", 1, 50⟩ : DiagnosisStat).count
        = testStore.examinations.countP (fun e => decide (normDiagnosis e = some key)) ∧
      (⟨str "Flu", 1, 50⟩ : DiagnosisStat).percentage
        = (if testStore.examinations.length > 0
          then jsRoundPct (⟨str "Flu", 1, 50⟩ : DiagnosisStat).count
            testStore.examinations.length
          else 0) :=
  (getTopDiagnoses_spec testStore).2.2 ⟨str "Flu", 1, 50⟩ (by decide)
